import Mathlib

/-!
Shallow embedding of `src/common/library-components/src/components/ArticleList/DraggableContext.tsx`.

The component keeps a mutable snapshot `articleLists : { [listId: string]: Article[] }`
together with two pieces of React state, `activeArticle` and `activeListId`, and three
event handlers `handleDragStart`, `handleDragOver`, `handleDragEnd`.  We model the
snapshot as an association list (JS objects have ordered, duplicate-free keys; `Object.keys`
iteration order is the entry order), the handlers as pure functions from a `DragState`
and an event to a new `DragState` together with the externally visible effects
(Replicache store commands, `reportEvent` calls, `setArticleLists` calls).

Modelling conventions, all noted where used:
* `getDomain` (imported from `../../common`, out of scope per the component) is a parameter.
* `new Date().getTime()` is a parameter `now`.
* The Replicache handle `rep` is taken to be present and its promises to resolve, so every
  `rep?.mutate...` call appears in the command trace; the `.then` continuation of
  `updateArticle` runs as a microtask strictly after the synchronous handler body, so the
  positional command it issues reads the snapshot *after* the in-place mutation.
* JS property reads of absent keys (`articleLists[k]` with `k` not a key) are modelled as
  the empty list; the code would throw on the subsequent method call, a case no claim and
  no reachable scenario here exercises (target keys always exist in the snapshot).
* JS string/`undefined` truthiness (`if (sourceList)`, `x?.id || null`) is modelled
  exactly: `none` and the empty string are falsy.
-/

namespace Unmedium

/-- The fields of `Article` the component reads: `id`, `topic_id` (possibly absent) and
`url` (fed to the external `getDomain`). -/
structure Article where
  id : String
  topic_id : Option String
  url : String
deriving DecidableEq

/-- `ArticleListsCache = { [listId: string]: Article[] }`, as an ordered association list
(JS object key order). -/
abbrev ArticleListsCache := List (String × List Article)

/-- `Object.keys(articleLists)`. -/
def keysOf (c : ArticleListsCache) : List String := c.map (fun kv => kv.1)

/-- `articleLists[k]`; an absent key is read as the empty list (see module comment). -/
def getList (c : ArticleListsCache) (k : String) : List Article :=
  ((c.find? (fun kv => kv.1 == k)).map (fun kv => kv.2)).getD []

/-- `articleLists[k] = v`: in-place property assignment.  An existing key keeps its
position; a new key is appended (JS object semantics). -/
def setList (c : ArticleListsCache) (k : String) (v : List Article) : ArticleListsCache :=
  if c.any (fun kv => kv.1 == k) then
    c.map (fun kv => if kv.1 == k then (k, v) else kv)
  else
    c ++ [(k, v)]

/-- `Object.keys(articleLists).find(listId => articleLists[listId].some(a => a.id === id))`. -/
def findContainingList (c : ArticleListsCache) (id : String) : Option String :=
  (c.find? (fun kv => kv.2.any (fun a => a.id == id))).map (fun kv => kv.1)

/-- `s.endsWith(m)` for the one-character marker `m` used by the source (`"_"`): the last
character is `m`.  Stated on the character list so that it evaluates by kernel reduction. -/
def endsWithMarker (s : String) (m : Char) : Bool :=
  s.data.getLast? == some m

/-- `s.includes(sep)` for the one-character separator `sep` used by the source (`"."`):
some character is `sep`. -/
def containsSep (s : String) (sep : Char) : Bool :=
  s.data.any (fun x => x == sep)

/-- Index normalisation shared by `Array.prototype.slice` and `Array.prototype.splice`:
a negative index counts from the end (clamped at 0), a positive one is clamped to the
length. -/
def jsSliceIdx (len : Nat) (i : Int) : Nat :=
  if i < 0 then ((len : Int) + i).toNat else min i.toNat len

/-- `l.slice(0, i).concat([a]).concat(l.slice(i))` (lines 139-142 of the source): both
slices normalise `i` the same way, so this inserts `a` at the normalised index. -/
def insertJS (l : List Article) (i : Int) (a : Article) : List Article :=
  let n := jsSliceIdx l.length i
  l.take n ++ [a] ++ l.drop n

/-- JS array indexing `l[i]`: `undefined` (here `none`) when out of range, including all
negative indices. -/
def jsGet {α : Type} (l : List α) (i : Int) : Option α :=
  if i < 0 then none else l[i.toNat]?

/-- `l.findIndex(p)`: the first matching index, `-1` when there is none. -/
def jsFindIndex (l : List Article) (p : Article → Bool) : Int :=
  match l.findIdx? p with
  | some n => (n : Int)
  | none => -1

/-- dnd-kit `arrayMove(array, from, to)`: copy, `splice` out one element at `from`, then
`splice` it back in at `to` (normalised against the original length, then clamped to the
shortened array).  When `from` is out of range JS would re-insert `undefined`, which has
no counterpart here; that case is modelled as the identity and is unreachable from the
handlers (the source index always comes from `findIndex` over the same array). -/
def arrayMoveJS {α : Type} (l : List α) (src dst : Int) : List α :=
  let toIdx := jsSliceIdx l.length dst
  let fromIdx := jsSliceIdx l.length src
  match l[fromIdx]? with
  | none => l
  | some x =>
    let removed := l.take fromIdx ++ l.drop (fromIdx + 1)
    let m := min toIdx removed.length
    removed.take m ++ [x] ++ removed.drop m

/-- JS truthiness of a `string | undefined` value: `undefined` and `""` are falsy. -/
def strTruthy (s : Option String) : Bool :=
  match s with
  | none => false
  | some s => !(s == "")

/-- `x?.id || null`: `undefined` becomes `null`, and so does the empty string. -/
def orNull (s : Option String) : Option String :=
  match s with
  | some s => if s == "" then none else some s
  | none => none

/-- The two Replicache mutations the component issues.  `updateArticle` carries the fields
actually passed (`queue_sort_position` is omitted by the membership-clear call in
`handleDragEnd`); `moveArticlePosition` carries the neighbour ids and the sort attribute. -/
inductive StoreCommand where
  | updateArticle (id : String) (is_queued : Bool) (queue_sort_position : Option Nat)
  | moveArticlePosition (articleId : String) (articleIdBeforeNewPosition : Option String)
      (articleIdAfterNewPosition : Option String) (sortPosition : String)
deriving DecidableEq

/-- Externally visible effects of one handler invocation: store commands in issue order,
`reportEvent` names, and the arguments of `setArticleLists` calls. -/
structure Effects where
  commands : List StoreCommand
  reported : List String
  published : List ArticleListsCache
deriving DecidableEq

/-- No effects. -/
def noEffects : Effects := { commands := [], reported := [], published := [] }

/-- The effects of the `!activeListId` branch of `handleDragEnd`:
`rep?.mutate.updateArticle({ id, is_queued: false })` and nothing else. -/
def membershipClear (id : String) : Effects :=
  { commands := [StoreCommand.updateArticle id false none], reported := [], published := [] }

/-- A dnd-kit `active`/`over` reference: its `id` and whether `data.current` is set
(absent on an empty-container drop target). -/
structure DragRef where
  id : String
  dataPresent : Bool
deriving DecidableEq

/-- `DragStartEvent`, restricted to what the handler reads. -/
structure StartEvent where
  activeId : String
  dataPresent : Bool
deriving DecidableEq

/-- `DragOverEvent`, restricted to what the handler reads (`over` may be `null`). -/
structure OverEvent where
  activeId : String
  over : Option DragRef
deriving DecidableEq

/-- `DragEndEvent`, restricted to what the handler reads (`over` may be `null`). -/
structure EndEvent where
  activeId : String
  over : Option DragRef
deriving DecidableEq

/-- The component's mutable state: the caller-owned snapshot (`undefined` allowed, the
prop is optional) and the two `useState` cells. -/
structure DragState where
  articleLists : Option ArticleListsCache
  activeArticle : Option Article
  activeListId : Option String
deriving DecidableEq

/-- Target-list resolution in `handleDragOver` (lines 80-84): an `over` without
`data.current` is an empty-container drop and its id is the list id; otherwise the list
containing the hovered item is looked up. -/
def resolveTarget (c : ArticleListsCache) (over : DragRef) : Option String :=
  if !over.dataPresent then some over.id else findContainingList c over.id

/-- Sort-key resolution in `handleDragEnd` (lines 173-190), first match wins. -/
def sortKeyOf (listId : String) : Option String :=
  if listId == "list" then some "recency_sort_position"
  else if listId == "queue" then some "queue_sort_position"
  else if listId == "favorites" then some "favorites_sort_position"
  else if endsWithMarker listId '_' then some "topic_sort_position"
  else if containsSep listId '.' then some "domain_sort_position"
  else none

/-- `oldIndex < newIndex ? newIndex + 1 : newIndex` (lines 194-195). -/
def shiftedIndex (oldIndex newIndex : Int) : Int :=
  if oldIndex < newIndex then newIndex + 1 else newIndex

/-- Lines 134-142 of `handleDragOver`: filter the active article out of the (truthy)
source list, then insert it into the target list at `targetIndex` via slices.  This is
the `applyCrossListMove` operation of the specification, inlined in the source. -/
def applyCrossListMove (c : ArticleListsCache) (article : Article) (sourceList : Option String)
    (targetList : String) (targetIndex : Int) : ArticleListsCache :=
  let c1 :=
    match sourceList with
    | some src =>
      if src == "" then c
      else setList c src ((getList c src).filter (fun a => a.id != article.id))
    | none => c
  setList c1 targetList (insertJS (getList c1 targetList) targetIndex article)

/-- `handleDragStart` (lines 55-70): record the containing list and the article. -/
def handleDragStart (s : DragState) (ev : StartEvent) : DragState :=
  if !ev.dataPresent then s
  else
    match s.articleLists with
    | none => s
    | some cache =>
      let sourceList := findContainingList cache ev.activeId
      let s1 := { s with activeListId := if strTruthy sourceList then sourceList else none }
      match sourceList with
      | some src =>
        if src == "" then s1
        else { s1 with
                activeArticle := (getList cache src).find? (fun a => a.id == ev.activeId) }
      | none => s1

/-- The accepted cross-list branch of `handleDragOver` (lines 110-147): target index from
the pre-mutation target list, the `updateArticle` membership command issued synchronously
before the mutation, the snapshot mutation of lines 134-142, and the
`moveArticlePosition` command issued by the promise continuation, which runs after the
synchronous handler body and therefore reads the post-insertion target list. -/
def acceptedMove (cache : ArticleListsCache) (a : Article) (sourceList : Option String)
    (targetList : String) (overId : String) (now : Nat) : DragState × Effects :=
  let targetIndex := jsFindIndex (getList cache targetList) (fun x => x.id == overId)
  let cache2 := applyCrossListMove cache a sourceList targetList targetIndex
  let post := getList cache2 targetList
  ({ articleLists := some cache2, activeArticle := some a, activeListId := some targetList },
   { commands := [StoreCommand.updateArticle a.id (targetList == "queue") (some now),
       StoreCommand.moveArticlePosition a.id ((jsGet post targetIndex).map (fun x => x.id))
         ((jsGet post (targetIndex + 1)).map (fun x => x.id)) "queue_sort_position"],
     reported := if targetList == "queue" then ["addArticleToQueue"] else [],
     published := [] })

/-- `handleDragOver` (lines 72-149). -/
def handleDragOver (getDomain : String → String) (now : Nat) (s : DragState)
    (ev : OverEvent) : DragState × Effects :=
  match s.articleLists, ev.over, s.activeArticle with
  | some cache, some over, some activeArticle =>
    let sourceList := findContainingList cache ev.activeId
    match resolveTarget cache over with
    | none => (s, noEffects)
    | some targetList =>
      if targetList == "" then (s, noEffects)
      else if sourceList == some targetList then (s, noEffects)
      else if sourceList != some "queue" && targetList != "queue" then (s, noEffects)
      else if (endsWithMarker targetList '_' && activeArticle.topic_id != some targetList)
          || (containsSep targetList '.' && getDomain activeArticle.url != targetList) then
        match sourceList with
        | some src =>
          if src == "" then (s, noEffects)
          else
            ({ s with
                articleLists :=
                  some (setList cache src
                    ((getList cache src).filter (fun a => a.id != activeArticle.id))),
                activeListId := none },
             noEffects)
        | none => (s, noEffects)
      else
        acceptedMove cache activeArticle sourceList targetList over.id now
  | _, _, _ => (s, noEffects)

/-- The intra-list reorder branch of `handleDragEnd` (lines 164-216), for a resolved sort
key: the indices and both neighbours are read from the pre-move sequence (the source
computes the indices just before resolving the sort key and the neighbours just after,
all before `arrayMove`), then the in-place `arrayMove` is applied and the updated
snapshot passed to `setArticleLists`. -/
def reorderMove (cache : ArticleListsCache) (activeListId activeId overId sortKey : String) :
    DragState × Effects :=
  let lst := getList cache activeListId
  let oldIndex := jsFindIndex lst (fun a => a.id == activeId)
  let newIndex := jsFindIndex lst (fun a => a.id == overId)
  let newIndexShifted := shiftedIndex oldIndex newIndex
  let beforeNew := jsGet lst (newIndexShifted - 1)
  let afterNew := jsGet lst newIndexShifted
  let cmd := StoreCommand.moveArticlePosition activeId
    (orNull (beforeNew.map (fun a => a.id)))
    (orNull (afterNew.map (fun a => a.id)))
    sortKey
  let cache2 := setList cache activeListId (arrayMoveJS lst oldIndex newIndex)
  ({ articleLists := some cache2, activeArticle := none, activeListId := none },
   { commands := [cmd], reported := ["reorderArticles"], published := [cache2] })

/-- `handleDragEnd` (lines 151-222). -/
def handleDragEnd (s : DragState) (ev : EndEvent) : DragState × Effects :=
  match ev.over, s.articleLists with
  | some over, some cache =>
    if !(strTruthy s.activeListId) then (s, membershipClear ev.activeId)
    else
      match s.activeListId with
      | none => (s, noEffects)
      | some activeListId =>
        if ev.activeId == over.id then
          ({ s with activeArticle := none, activeListId := none },
           { commands := [], reported := ["reorderArticles"], published := [] })
        else
          match sortKeyOf activeListId with
          | none => (s, noEffects)
          | some sortKey => reorderMove cache activeListId ev.activeId over.id sortKey
  | _, _ => (s, noEffects)

/-! ### Concrete scenarios used by the counterexamples and witnesses -/

/-- A concrete article sitting in the reading queue. -/
def a1 : Article := { id := "a1", topic_id := none, url := "u1" }

/-- A concrete stand-in for the external `getDomain`. -/
def gd0 : String → String := fun _ => ""

/-- Snapshot with `"a1"` in `"queue"` and an empty `"favorites"` list. -/
def cache0 : ArticleListsCache := [("queue", [a1]), ("favorites", [])]

/-- Session state right after `handleDragStart` on `"a1"`: dragging `a1` out of `"queue"`. -/
def s0 : DragState :=
  { articleLists := some cache0, activeArticle := some a1, activeListId := some "queue" }

/-- Over event: `"a1"` hovers the empty `"favorites"` container (no `data.current`). -/
def ev0 : OverEvent :=
  { activeId := "a1", over := some { id := "favorites", dataPresent := false } }

/-- Session state with the recorded source list already cleared (as after a
grouping-mismatch denial) but the active article still set. -/
def sClear : DragState :=
  { articleLists := some cache0, activeArticle := some a1, activeListId := none }

/-- End event for the cleared-source scenario. -/
def evClear : EndEvent :=
  { activeId := "a1", over := some { id := "favorites", dataPresent := false } }

/-- Four articles for the reorder scenarios. -/
def artA : Article := { id := "a", topic_id := none, url := "" }

/-- Second article. -/
def artB : Article := { id := "b", topic_id := none, url := "" }

/-- Third article. -/
def artC : Article := { id := "c", topic_id := none, url := "" }

/-- Fourth article. -/
def artD : Article := { id := "d", topic_id := none, url := "" }

/-- Snapshot with the four articles in `"queue"`. -/
def cacheQ : ArticleListsCache := [("queue", [artA, artB, artC, artD])]

/-- Dragging `artA` within `"queue"`. -/
def sQ : DragState :=
  { articleLists := some cacheQ, activeArticle := some artA, activeListId := some "queue" }

/-- End event: drop `artA` onto `artC` (index 0 → index 2). -/
def evQ : EndEvent := { activeId := "a", over := some { id := "c", dataPresent := true } }

/-- Snapshot whose only list has an id of no recognised sort-key form. -/
def cacheW : ArticleListsCache := [("weird", [artA, artB])]

/-- Dragging `artA` within the unrecognised list. -/
def sW : DragState :=
  { articleLists := some cacheW, activeArticle := some artA, activeListId := some "weird" }

/-- End event: drop `artA` onto `artB` inside the unrecognised list. -/
def evW : EndEvent := { activeId := "a", over := some { id := "b", dataPresent := true } }

/-- An article classified under topic `"sports_"`, sitting in the queue. -/
def aX : Article := { id := "x", topic_id := some "sports_", url := "ux" }

/-- Snapshot with `aX` in `"queue"` and an empty topic list `"news_"`. -/
def cacheT : ArticleListsCache := [("queue", [aX]), ("news_", [])]

/-- Dragging `aX` out of `"queue"`. -/
def sT : DragState :=
  { articleLists := some cacheT, activeArticle := some aX, activeListId := some "queue" }

/-- Over event: `aX` hovers the `"news_"` container. -/
def evT : OverEvent := { activeId := "x", over := some { id := "news_", dataPresent := false } }

/-- Snapshot with `artA` in `"list"` and `artB` in `"favorites"` (no queue involved). -/
def cacheL : ArticleListsCache := [("list", [artA]), ("favorites", [artB])]

/-- Dragging `artA` out of `"list"`. -/
def sL : DragState :=
  { articleLists := some cacheL, activeArticle := some artA, activeListId := some "list" }

/-- Over event: `artA` hovers the `"favorites"` container. -/
def evL : OverEvent :=
  { activeId := "a", over := some { id := "favorites", dataPresent := false } }

/-- Snapshot for the round-trip scenario: two articles in `"queue"`, one in `"favorites"`. -/
def cache9 : ArticleListsCache := [("queue", [artA, artB]), ("favorites", [artC])]

/-! ### Basic lemmas about the snapshot operations -/

theorem mem_keysOf_iff_any (c : ArticleListsCache) (k : String) :
    k ∈ keysOf c ↔ c.any (fun kv => kv.1 == k) = true := by
  unfold keysOf
  rw [List.any_eq_true]
  constructor
  · intro h
    rcases List.mem_map.mp h with ⟨kv, hm, hk⟩
    exact ⟨kv, hm, by simp [hk]⟩
  · rintro ⟨kv, hm, hk⟩
    exact List.mem_map.mpr ⟨kv, hm, by simpa using hk⟩

theorem find?_setList_self (c : ArticleListsCache) (k : String) (v : List Article) :
    (setList c k v).find? (fun kv => kv.1 == k) = some (k, v) := by
  unfold setList
  by_cases h : c.any (fun kv => kv.1 == k) = true
  · rw [if_pos h]
    induction c with
    | nil => simp at h
    | cons kv c ih =>
      by_cases hk : kv.1 = k
      · rw [List.map_cons, if_pos (by simpa using hk)]
        exact List.find?_cons_of_pos _ (by simp)
      · rw [List.map_cons, if_neg (by simpa using hk),
          List.find?_cons_of_neg _ (by simpa using hk)]
        rw [List.any_cons] at h
        rcases Bool.or_eq_true_iff.mp h with h1 | h2
        · exact absurd (by simpa using h1) hk
        · exact ih h2
  · rw [if_neg h]
    have hn : c.find? (fun kv => kv.1 == k) = none :=
      List.find?_eq_none.mpr fun x hx hpx => h (List.any_eq_true.mpr ⟨x, hx, hpx⟩)
    rw [List.find?_append, hn, Option.none_or]
    exact List.find?_cons_of_pos _ (by simp)

theorem find?_setList_ne (c : ArticleListsCache) (k v k2) (h : k2 ≠ k) :
    (setList c k v).find? (fun kv => kv.1 == k2) = c.find? (fun kv => kv.1 == k2) := by
  unfold setList
  by_cases hany : c.any (fun kv => kv.1 == k) = true
  · rw [if_pos hany]
    clear hany
    induction c with
    | nil => rfl
    | cons kv c ih =>
      by_cases hk : kv.1 = k
      · rw [List.map_cons, if_pos (by simpa using hk),
          List.find?_cons_of_neg _ (by simpa using Ne.symm h),
          List.find?_cons_of_neg _ (by simp [hk]; exact Ne.symm h)]
        exact ih
      · rw [List.map_cons, if_neg (by simpa using hk)]
        by_cases h2 : kv.1 = k2
        · rw [List.find?_cons_of_pos _ (by simpa using h2),
            List.find?_cons_of_pos _ (by simpa using h2)]
        · rw [List.find?_cons_of_neg _ (by simpa using h2),
            List.find?_cons_of_neg _ (by simpa using h2)]
          exact ih
  · rw [if_neg hany]
    rw [List.find?_append, List.find?_cons_of_neg _ (by simpa using Ne.symm h)]
    simp

theorem getList_setList_self (c : ArticleListsCache) (k : String) (v : List Article) :
    getList (setList c k v) k = v := by
  unfold getList
  rw [find?_setList_self]
  rfl

theorem getList_setList_ne (c : ArticleListsCache) (k v k2) (h : k2 ≠ k) :
    getList (setList c k v) k2 = getList c k2 := by
  unfold getList
  rw [find?_setList_ne c k v k2 h]

theorem keysOf_setList (c : ArticleListsCache) (k v) (h : k ∈ keysOf c) :
    keysOf (setList c k v) = keysOf c := by
  unfold setList
  rw [if_pos ((mem_keysOf_iff_any c k).mp h)]
  unfold keysOf
  rw [List.map_map]
  apply List.map_congr_left
  intro kv _
  by_cases hk : kv.1 = k
  · simp [hk]
  · simp [hk]

theorem findContainingList_mem_keysOf (c : ArticleListsCache) (id S)
    (h : findContainingList c id = some S) : S ∈ keysOf c := by
  unfold findContainingList at h
  rcases Option.map_eq_some'.mp h with ⟨kv, hf, hS⟩
  exact hS ▸ List.mem_map.mpr ⟨kv, List.mem_of_find?_eq_some hf, rfl⟩

/-! ### Lemmas about the JS index arithmetic -/

theorem insertJS_nil (i : Int) (a : Article) : insertJS [] i a = [a] := by
  unfold insertJS jsSliceIdx
  simp

theorem insertJS_of_nonneg (l : List Article) (n : Nat) (a : Article) (h : n ≤ l.length) :
    insertJS l (n : Int) a = l.take n ++ [a] ++ l.drop n := by
  unfold insertJS jsSliceIdx
  rw [if_neg (by omega), Int.toNat_natCast, Nat.min_eq_left h]

theorem jsFindIndex_nil (p : Article → Bool) : jsFindIndex [] p = -1 := rfl

theorem jsFindIndex_nonneg_spec (l : List Article) (p : Article → Bool) (n : Nat)
    (h : jsFindIndex l p = (n : Int)) : l.findIdx? p = some n ∧ n < l.length := by
  cases hf : l.findIdx? p with
  | none =>
    have hneg : jsFindIndex l p = -1 := by unfold jsFindIndex; rw [hf]
    rw [hneg] at h
    omega
  | some m =>
    have hm' : jsFindIndex l p = (m : Int) := by unfold jsFindIndex; rw [hf]
    rw [hm'] at h
    have hm : m = n := by exact_mod_cast h
    subst hm
    exact ⟨rfl, (List.findIdx?_eq_some_iff_findIdx_eq.mp hf).1⟩

theorem jsGet_insertJS_self (l : List Article) (n : Nat) (a : Article) (h : n ≤ l.length) :
    jsGet (insertJS l (n : Int) a) (n : Int) = some a := by
  rw [insertJS_of_nonneg l n a h]
  unfold jsGet
  rw [if_neg (by omega), Int.toNat_natCast]
  have hlen : (l.take n).length = n := by simp [Nat.min_eq_left h]
  rw [List.append_assoc, List.getElem?_append_right (by omega), hlen]
  simp

theorem jsGet_insertJS_next (l : List Article) (n : Nat) (a : Article) (h : n ≤ l.length) :
    jsGet (insertJS l (n : Int) a) ((n : Int) + 1) = l[n]? := by
  rw [insertJS_of_nonneg l n a h]
  unfold jsGet
  rw [if_neg (by omega)]
  have ht : ((n : Int) + 1).toNat = n + 1 := by omega
  rw [ht]
  have hlen : (l.take n).length = n := by simp [Nat.min_eq_left h]
  rw [List.append_assoc, List.getElem?_append_right (by omega), hlen]
  have : n + 1 - n = 1 := by omega
  rw [this]
  show (a :: l.drop n)[1]? = l[n]?
  rw [List.getElem?_cons_succ, List.getElem?_drop, Nat.add_zero]

theorem getList_applyCrossListMove_target (c : ArticleListsCache) (a : Article)
    (S : Option String) (T : String) (i : Int) (hST : S ≠ some T) :
    getList (applyCrossListMove c a S T i) T = insertJS (getList c T) i a := by
  unfold applyCrossListMove
  cases S with
  | none => rw [getList_setList_self]
  | some src =>
    have hsrcT : T ≠ src := by
      intro he
      exact hST (by rw [he])
    cases hb : (src == "" : Bool) with
    | false =>
      simp only [hb, Bool.false_eq_true, if_false]
      rw [getList_setList_self, getList_setList_ne _ _ _ _ hsrcT]
    | true =>
      simp only [hb, if_true]
      rw [getList_setList_self]

/-! ### Branch-reduction lemmas for the handlers -/

theorem handleDragOver_accepted (gd : String → String) (now : Nat) (s : DragState)
    (ev : OverEvent) (cache : ArticleListsCache) (over : DragRef) (a : Article) (T : String)
    (hc : s.articleLists = some cache) (ha : s.activeArticle = some a)
    (ho : ev.over = some over)
    (hT : resolveTarget cache over = some T) (hT0 : T ≠ "")
    (hS : findContainingList cache ev.activeId ≠ some T)
    (hq : findContainingList cache ev.activeId = some "queue" ∨ T = "queue")
    (hg : (endsWithMarker T '_' && a.topic_id != some T
        || containsSep T '.' && gd a.url != T) = false) :
    handleDragOver gd now s ev
      = acceptedMove cache a (findContainingList cache ev.activeId) T over.id now := by
  have h1 : (T == "") = false := by simp [hT0]
  have h2 : (findContainingList cache ev.activeId == some T) = false := by simp [hS]
  have h3 : (findContainingList cache ev.activeId != some "queue" && T != "queue") = false := by
    rcases hq with hq | hq <;> simp [hq]
  unfold handleDragOver
  rw [hc, ho, ha]
  simp only [hT, h1, h2, h3, hg, Bool.false_eq_true, if_false]

theorem handleDragOver_rule2_denied (gd : String → String) (now : Nat) (s : DragState)
    (ev : OverEvent) (cache : ArticleListsCache) (over : DragRef) (a : Article) (T : String)
    (hc : s.articleLists = some cache) (ha : s.activeArticle = some a)
    (ho : ev.over = some over)
    (hT : resolveTarget cache over = some T) (hT0 : T ≠ "")
    (hS : findContainingList cache ev.activeId ≠ some T)
    (hq1 : findContainingList cache ev.activeId ≠ some "queue") (hq2 : T ≠ "queue") :
    handleDragOver gd now s ev = (s, noEffects) := by
  have h1 : (T == "") = false := by simp [hT0]
  have h2 : (findContainingList cache ev.activeId == some T) = false := by simp [hS]
  have h3 : (findContainingList cache ev.activeId != some "queue" && T != "queue") = true := by
    simp [hq1, hq2]
  unfold handleDragOver
  rw [hc, ho, ha]
  simp only [hT, h1, h2, h3, Bool.false_eq_true, if_false, if_true]

theorem handleDragOver_group_denied (gd : String → String) (now : Nat) (s : DragState)
    (ev : OverEvent) (cache : ArticleListsCache) (over : DragRef) (a : Article)
    (T src : String)
    (hc : s.articleLists = some cache) (ha : s.activeArticle = some a)
    (ho : ev.over = some over)
    (hT : resolveTarget cache over = some T) (hT0 : T ≠ "")
    (hsrc : findContainingList cache ev.activeId = some src) (hsrc0 : src ≠ "")
    (hS : src ≠ T)
    (hq : src = "queue" ∨ T = "queue")
    (hg : (endsWithMarker T '_' && a.topic_id != some T
        || containsSep T '.' && gd a.url != T) = true) :
    handleDragOver gd now s ev
      = ({ articleLists :=
            some (setList cache src ((getList cache src).filter (fun x => x.id != a.id))),
           activeArticle := some a, activeListId := none },
         noEffects) := by
  have h1 : (T == "") = false := by simp [hT0]
  have h2 : (findContainingList cache ev.activeId == some T) = false := by
    rw [hsrc]; simp [hS]
  have h3 : (findContainingList cache ev.activeId != some "queue" && T != "queue") = false := by
    rcases hq with hq | hq
    · rw [hsrc, hq]; simp
    · rw [hq]; simp
  have h4 : (src == "") = false := by simp [hsrc0]
  have h2b : ((some src : Option String) == some T) = false := by simp [hS]
  have h3b : ((some src : Option String) != some "queue" && T != "queue") = false := by
    rcases hq with hq | hq <;> simp [hq]
  unfold handleDragOver
  rw [hc, ho, ha]
  simp only [hT, h1, hsrc, h2b, h3b, hg, h4, Bool.false_eq_true, if_false, if_true, ha]

theorem handleDragEnd_reorder (s : DragState) (ev : EndEvent)
    (cache : ArticleListsCache) (over : DragRef) (L sk : String)
    (hc : s.articleLists = some cache) (ho : ev.over = some over)
    (hL : s.activeListId = some L) (hL0 : L ≠ "")
    (hne : ev.activeId ≠ over.id) (hsk : sortKeyOf L = some sk) :
    handleDragEnd s ev = reorderMove cache L ev.activeId over.id sk := by
  have ht : strTruthy (some L) = true := by simp [strTruthy, hL0]
  have hne' : (ev.activeId == over.id) = false := by simp [hne]
  unfold handleDragEnd
  rw [ho, hc]
  simp only [hL, ht, hne', hsk, Bool.not_true, Bool.false_eq_true, if_false]

theorem handleDragEnd_noSource (s : DragState) (ev : EndEvent)
    (cache : ArticleListsCache) (over : DragRef)
    (hc : s.articleLists = some cache) (ho : ev.over = some over)
    (hL : strTruthy s.activeListId = false) :
    handleDragEnd s ev = (s, membershipClear ev.activeId) := by
  unfold handleDragEnd
  rw [ho, hc]
  simp only [hL, Bool.not_false, if_true]

theorem handleDragEnd_badSortKey (s : DragState) (ev : EndEvent)
    (cache : ArticleListsCache) (over : DragRef) (L : String)
    (hc : s.articleLists = some cache) (ho : ev.over = some over)
    (hL : s.activeListId = some L) (hL0 : L ≠ "")
    (hne : ev.activeId ≠ over.id) (hsk : sortKeyOf L = none) :
    handleDragEnd s ev = (s, noEffects) := by
  have ht : strTruthy (some L) = true := by simp [strTruthy, hL0]
  have hne' : (ev.activeId == over.id) = false := by simp [hne]
  unfold handleDragEnd
  rw [ho, hc]
  simp only [hL, ht, hne', hsk, Bool.not_true, Bool.false_eq_true, if_false]

theorem handleDragEnd_selfTarget (s : DragState) (ev : EndEvent)
    (cache : ArticleListsCache) (over : DragRef) (L : String)
    (hc : s.articleLists = some cache) (ho : ev.over = some over)
    (hL : s.activeListId = some L) (hL0 : L ≠ "")
    (heq : ev.activeId = over.id) :
    handleDragEnd s ev
      = ({ s with activeArticle := none, activeListId := none },
         { commands := [], reported := ["reorderArticles"], published := [] }) := by
  have ht : strTruthy (some L) = true := by simp [strTruthy, hL0]
  have heq' : (ev.activeId == over.id) = true := by simp [heq]
  unfold handleDragEnd
  rw [ho, hc]
  simp only [hL, ht, heq', Bool.not_true, Bool.false_eq_true, if_false, if_true]

/-! ### The claims -/

/-- C1: the claim says that an over event from `"queue"` onto the empty list
`"favorites"` is denied by rule 2 and leaves the snapshot entirely unmutated.  False:
rule 2 only requires source *or* target to be the queue, the source here is the queue, so
the move is accepted and the snapshot is mutated. -/
theorem c1_counterexample :
    (handleDragOver gd0 0 s0 ev0).1.articleLists ≠ s0.articleLists := by decide

/-- C1 (amended): starting on `"a1"` in `"queue"`, an over event onto the empty list
`"favorites"` is allowed by rule 2 (the source is the queue) and mutates the snapshot:
`"a1"` is removed from `"queue"`, inserted into `"favorites"`, and the session records
`"favorites"` as the new source; separately, an end event delivered while the session has
no truthy recorded source list issues a membership-clear command for the event's active
id and leaves the state unchanged — the active item is not cleared and the session does
not reset to an idle state. -/
theorem c1_amended (gd : String → String) (now : Nat) :
    handleDragOver gd now s0 ev0 =
      ({ articleLists := some [("queue", []), ("favorites", [a1])],
         activeArticle := some a1, activeListId := some "favorites" },
       { commands := [StoreCommand.updateArticle "a1" false (some now),
           StoreCommand.moveArticlePosition "a1" none (some "a1") "queue_sort_position"],
         reported := [], published := [] })
    ∧ ∀ (s : DragState) (ev : EndEvent) (cache : ArticleListsCache) (over : DragRef),
        s.articleLists = some cache → ev.over = some over →
        strTruthy s.activeListId = false →
        handleDragEnd s ev = (s, membershipClear ev.activeId) := by
  constructor
  · rfl
  · intro s ev cache over hc ho hL
    exact handleDragEnd_noSource s ev cache over hc ho hL

/-- C1 witness: the amended claim evaluated at the concrete scenario. -/
theorem c1_witness :
    handleDragOver gd0 0 s0 ev0 =
      ({ articleLists := some [("queue", []), ("favorites", [a1])],
         activeArticle := some a1, activeListId := some "favorites" },
       { commands := [StoreCommand.updateArticle "a1" false (some 0),
           StoreCommand.moveArticlePosition "a1" none (some "a1") "queue_sort_position"],
         reported := [], published := [] })
    ∧ handleDragEnd sClear evClear = (sClear, membershipClear "a1") :=
  ⟨(c1_amended gd0 0).1,
   (c1_amended gd0 0).2 sClear evClear cache0 { id := "favorites", dataPresent := false }
     rfl rfl rfl⟩

/-- C6: an over event whose resolved target differs from the source is denied, with the
snapshot (and the whole state) unchanged and no effects, whenever neither the source nor
the target is `"queue"`. -/
theorem c6_nonqueue_cross_denied (gd : String → String) (now : Nat) (s : DragState)
    (ev : OverEvent) (cache : ArticleListsCache) (over : DragRef) (a : Article) (T : String)
    (hc : s.articleLists = some cache) (ha : s.activeArticle = some a)
    (ho : ev.over = some over)
    (hT : resolveTarget cache over = some T) (hT0 : T ≠ "")
    (hS : findContainingList cache ev.activeId ≠ some T)
    (hq1 : findContainingList cache ev.activeId ≠ some "queue") (hq2 : T ≠ "queue") :
    handleDragOver gd now s ev = (s, noEffects) :=
  handleDragOver_rule2_denied gd now s ev cache over a T hc ha ho hT hT0 hS hq1 hq2

/-- C6 witness: dragging from `"list"` onto `"favorites"` (neither is the queue) is a
no-op. -/
theorem c6_witness : handleDragOver gd0 0 sL evL = (sL, noEffects) :=
  c6_nonqueue_cross_denied gd0 0 sL evL cacheL { id := "favorites", dataPresent := false }
    artA "favorites" rfl rfl rfl rfl (by decide) (by decide) (by decide) (by decide)

/-- C5: a cross-list move denied for a grouping mismatch (topic- or domain-derived target
whose key does not match the item's classification) still removes the item from its
source list in the snapshot, inserts it nowhere, leaves every other list — in particular
the target — unchanged, and issues no commands. -/
theorem c5_group_denial_side_effect (gd : String → String) (now : Nat) (s : DragState)
    (ev : OverEvent) (cache : ArticleListsCache) (over : DragRef) (a : Article)
    (T src : String)
    (hc : s.articleLists = some cache) (ha : s.activeArticle = some a)
    (ho : ev.over = some over)
    (hT : resolveTarget cache over = some T) (hT0 : T ≠ "")
    (hsrc : findContainingList cache ev.activeId = some src) (hsrc0 : src ≠ "")
    (hS : src ≠ T)
    (hq : src = "queue" ∨ T = "queue")
    (hg : (endsWithMarker T '_' && a.topic_id != some T
        || containsSep T '.' && gd a.url != T) = true) :
    handleDragOver gd now s ev =
      ({ articleLists :=
          some (setList cache src ((getList cache src).filter (fun x => x.id != a.id))),
         activeArticle := some a, activeListId := none },
       noEffects)
    ∧ getList (setList cache src ((getList cache src).filter (fun x => x.id != a.id))) src
        = (getList cache src).filter (fun x => x.id != a.id)
    ∧ ∀ L, L ≠ src →
        getList (setList cache src ((getList cache src).filter (fun x => x.id != a.id))) L
          = getList cache L := by
  refine ⟨handleDragOver_group_denied gd now s ev cache over a T src
      hc ha ho hT hT0 hsrc hsrc0 hS hq hg,
    getList_setList_self _ _ _, ?_⟩
  intro L hL
  exact getList_setList_ne _ _ _ _ hL

/-- C5 witness: the article with topic `"sports_"` dragged from `"queue"` onto `"news_"`
falls out of the queue while `"news_"` stays empty and no command is issued. -/
theorem c5_witness :
    handleDragOver gd0 0 sT evT =
      ({ articleLists := some [("queue", []), ("news_", [])],
         activeArticle := some aX, activeListId := none },
       noEffects)
    ∧ getList (handleDragOver gd0 0 sT evT).1.articleLists.iget "news_" = [] := by
  have h := c5_group_denial_side_effect gd0 0 sT evT cacheT
      { id := "news_", dataPresent := false } aX "news_" "queue"
      rfl rfl rfl rfl (by decide) (by decide) (by decide) (by decide) (Or.inl rfl) (by decide)
  constructor
  · rw [h.1]
    decide
  · rw [h.1]
    decide

/-- C2: the claim says every end event delivered while dragging resets the session to
idle and always emits the `"reorderArticles"` notification.  False: when the recorded
list's sort key cannot be resolved (here the list id `"weird"`), the handler returns
early — the state is unchanged (the active article is still recorded) and nothing is
reported. -/
theorem c2_counterexample :
    handleDragEnd sW evW = (sW, noEffects)
    ∧ sW.activeArticle = some artA
    ∧ sW.activeListId = some "weird"
    ∧ noEffects.reported = [] := by decide

/-- C2 (amended): an end event carrying a target, delivered with a snapshot and a truthy
recorded source list, clears the recorded item and source and emits `"reorderArticles"`
provided the target is the dragged item itself or the recorded list's sort key resolves;
the sort-key-failure, missing-source and missing-target branches return early without
reset or notification. -/
theorem c2_amended (s : DragState) (ev : EndEvent) (cache : ArticleListsCache)
    (over : DragRef) (L : String)
    (hc : s.articleLists = some cache) (ho : ev.over = some over)
    (hL : s.activeListId = some L) (hL0 : L ≠ "")
    (h : ev.activeId = over.id ∨ ∃ sk, sortKeyOf L = some sk) :
    (handleDragEnd s ev).1.activeArticle = none
    ∧ (handleDragEnd s ev).1.activeListId = none
    ∧ (handleDragEnd s ev).2.reported = ["reorderArticles"] := by
  by_cases heq : ev.activeId = over.id
  · rw [handleDragEnd_selfTarget s ev cache over L hc ho hL hL0 heq]
    exact ⟨rfl, rfl, rfl⟩
  · rcases h with h | ⟨sk, hsk⟩
    · exact absurd h heq
    · rw [handleDragEnd_reorder s ev cache over L sk hc ho hL hL0 heq hsk]
      exact ⟨rfl, rfl, rfl⟩

/-- C2 witness: the amended claim at the concrete queue-reorder scenario. -/
theorem c2_witness :
    (handleDragEnd sQ evQ).1.activeArticle = none
    ∧ (handleDragEnd sQ evQ).1.activeListId = none
    ∧ (handleDragEnd sQ evQ).2.reported = ["reorderArticles"] :=
  c2_amended sQ evQ cacheQ { id := "c", dataPresent := true } "queue" rfl rfl rfl
    (by decide) (Or.inr ⟨"queue_sort_position", rfl⟩)

/-- C4: for an intra-list reorder, the effective boundary index is `newIndex + 1` when
moving forward and `newIndex` otherwise, and the positional command's neighbours are read
from the pre-move sequence at `effectiveIndex - 1` and `effectiveIndex`, before the
in-place `arrayMove` produces the updated list. -/
theorem c4_shifted_reorder (s : DragState) (ev : EndEvent) (cache : ArticleListsCache)
    (over : DragRef) (L sk : String) (t : List Article) (i j : Int)
    (hc : s.articleLists = some cache) (ho : ev.over = some over)
    (hL : s.activeListId = some L) (hL0 : L ≠ "")
    (hne : ev.activeId ≠ over.id) (hsk : sortKeyOf L = some sk)
    (ht : getList cache L = t)
    (hi : jsFindIndex t (fun x => x.id == ev.activeId) = i)
    (hj : jsFindIndex t (fun x => x.id == over.id) = j) :
    (i < j → shiftedIndex i j = j + 1)
    ∧ (¬ i < j → shiftedIndex i j = j)
    ∧ handleDragEnd s ev =
      ({ articleLists := some (setList cache L (arrayMoveJS t i j)),
         activeArticle := none, activeListId := none },
       { commands := [StoreCommand.moveArticlePosition ev.activeId
           (orNull ((jsGet t (shiftedIndex i j - 1)).map (fun x => x.id)))
           (orNull ((jsGet t (shiftedIndex i j)).map (fun x => x.id))) sk],
         reported := ["reorderArticles"],
         published := [setList cache L (arrayMoveJS t i j)] }) := by
  refine ⟨fun hlt => by rw [shiftedIndex, if_pos hlt],
    fun hge => by rw [shiftedIndex, if_neg hge], ?_⟩
  rw [handleDragEnd_reorder s ev cache over L sk hc ho hL hL0 hne hsk]
  unfold reorderMove
  dsimp only
  rw [ht, hi, hj]

/-- C4 witness: moving index 0 to index 2 in `[A, B, C, D]` uses effective index 3,
neighbours `(before = C, after = D)` from the pre-move sequence, and yields
`[B, C, A, D]`. -/
theorem c4_witness :
    shiftedIndex 0 2 = 3
    ∧ handleDragEnd sQ evQ =
      ({ articleLists := some [("queue", [artB, artC, artA, artD])],
         activeArticle := none, activeListId := none },
       { commands := [StoreCommand.moveArticlePosition "a"
           (some "c") (some "d") "queue_sort_position"],
         reported := ["reorderArticles"],
         published := [[("queue", [artB, artC, artA, artD])]] }) := by
  have h := c4_shifted_reorder sQ evQ cacheQ { id := "c", dataPresent := true }
      "queue" "queue_sort_position" [artA, artB, artC, artD] 0 2
      rfl rfl rfl (by decide) (by decide) rfl rfl rfl rfl
  refine ⟨by have := h.1 (by decide); exact_mod_cast this, ?_⟩
  rw [h.2.2]
  decide

/-- C7: sort-key resolution maps `"list"` to the recency attribute, `"queue"` to the
queue attribute, `"favorites"` to the favorites attribute, ids ending in `"_"` to the
topic attribute, ids containing `"."` (and not ending in `"_"`) to the domain attribute,
and resolves nothing for any other id — in which case the end handler aborts only that
move: it returns with the state unchanged and no command, report or publication. -/
theorem c7_sort_key_resolution :
    sortKeyOf "list" = some "recency_sort_position"
    ∧ sortKeyOf "queue" = some "queue_sort_position"
    ∧ sortKeyOf "favorites" = some "favorites_sort_position"
    ∧ (∀ id, endsWithMarker id '_' = true → sortKeyOf id = some "topic_sort_position")
    ∧ (∀ id, endsWithMarker id '_' = false → containsSep id '.' = true →
        sortKeyOf id = some "domain_sort_position")
    ∧ (∀ id, id ≠ "list" → id ≠ "queue" → id ≠ "favorites" →
        endsWithMarker id '_' = false → containsSep id '.' = false → sortKeyOf id = none)
    ∧ (∀ (s : DragState) (ev : EndEvent) (cache : ArticleListsCache) (over : DragRef)
        (L : String),
        s.articleLists = some cache → ev.over = some over → s.activeListId = some L →
        L ≠ "" → ev.activeId ≠ over.id → sortKeyOf L = none →
        handleDragEnd s ev = (s, noEffects)) := by
  refine ⟨rfl, rfl, rfl, ?_, ?_, ?_, ?_⟩
  · intro id h
    have h1 : id ≠ "list" := by rintro rfl; exact absurd h (by decide)
    have h2 : id ≠ "queue" := by rintro rfl; exact absurd h (by decide)
    have h3 : id ≠ "favorites" := by rintro rfl; exact absurd h (by decide)
    simp [sortKeyOf, h1, h2, h3, h]
  · intro id h h'
    have h1 : id ≠ "list" := by rintro rfl; exact absurd h' (by decide)
    have h2 : id ≠ "queue" := by rintro rfl; exact absurd h' (by decide)
    have h3 : id ≠ "favorites" := by rintro rfl; exact absurd h' (by decide)
    simp [sortKeyOf, h1, h2, h3, h, h']
  · intro id h1 h2 h3 h4 h5
    simp [sortKeyOf, h1, h2, h3, h4, h5]
  · intro s ev cache over L hc ho hL hL0 hne hsk
    exact handleDragEnd_badSortKey s ev cache over L hc ho hL hL0 hne hsk

/-- C7 witness: the mapping at representative ids, and the aborted move at the concrete
unresolvable-list scenario. -/
theorem c7_witness :
    sortKeyOf "sports_" = some "topic_sort_position"
    ∧ sortKeyOf "nytimes.com" = some "domain_sort_position"
    ∧ sortKeyOf "weird" = none
    ∧ handleDragEnd sW evW = (sW, noEffects) := by
  have h := c7_sort_key_resolution
  exact ⟨h.2.2.2.1 "sports_" (by decide),
    h.2.2.2.2.1 "nytimes.com" (by decide) (by decide),
    h.2.2.2.2.2.1 "weird" (by decide) (by decide) (by decide) (by decide) (by decide),
    h.2.2.2.2.2.2 sW evW cacheW { id := "b", dataPresent := true } "weird"
      rfl rfl rfl (by decide) (by decide) (by decide)⟩

/-- C3: the claim says the positional command's neighbours come from the pre-insertion
target sequence, with the pre-insertion item at the target index as the "after"
neighbour and its predecessor as the "before" neighbour, and that a move into an empty
target list yields `(null, null)`.  False: the promise continuation reads the
post-insertion sequence, so for the concrete move of `"a1"` into the empty
`"favorites"` the emitted command carries the moved item's own id as "after" neighbour
instead of `null`. -/
theorem c3_counterexample :
    (handleDragOver gd0 0 s0 ev0).2.commands
      = [StoreCommand.updateArticle "a1" false (some 0),
         StoreCommand.moveArticlePosition "a1" none (some "a1") "queue_sort_position"]
    ∧ ∀ cmd ∈ (handleDragOver gd0 0 s0 ev0).2.commands,
        cmd ≠ StoreCommand.moveArticlePosition "a1" none none "queue_sort_position" := by
  decide

/-- C3 (amended): for every accepted cross-list move, the positional command's boundary
neighbours are read from the *post-insertion* target sequence at the chosen target index:
the entry at the target index (the moved item itself whenever the index is non-negative)
is the "before" neighbour and the entry after it — the item that sat at the chosen index
before insertion — is the "after" neighbour; moving into an empty target list produces
`beforeNeighborId` null and `afterNeighborId` the moved item's own id. -/
theorem c3_amended (gd : String → String) (now : Nat) (s : DragState) (ev : OverEvent)
    (cache : ArticleListsCache) (over : DragRef) (a : Article) (T : String)
    (t : List Article) (ti : Int)
    (hc : s.articleLists = some cache) (ha : s.activeArticle = some a)
    (ho : ev.over = some over)
    (hT : resolveTarget cache over = some T) (hT0 : T ≠ "")
    (hS : findContainingList cache ev.activeId ≠ some T)
    (hq : findContainingList cache ev.activeId = some "queue" ∨ T = "queue")
    (hg : (endsWithMarker T '_' && a.topic_id != some T
        || containsSep T '.' && gd a.url != T) = false)
    (ht : getList cache T = t)
    (hti : jsFindIndex t (fun x => x.id == over.id) = ti) :
    (handleDragOver gd now s ev).2.commands =
      [StoreCommand.updateArticle a.id (T == "queue") (some now),
       StoreCommand.moveArticlePosition a.id
         ((jsGet (insertJS t ti a) ti).map (fun x => x.id))
         ((jsGet (insertJS t ti a) (ti + 1)).map (fun x => x.id))
         "queue_sort_position"]
    ∧ (t = [] →
        (jsGet (insertJS t ti a) ti).map (fun x => x.id) = none
        ∧ (jsGet (insertJS t ti a) (ti + 1)).map (fun x => x.id) = some a.id)
    ∧ (∀ n : Nat, ti = (n : Int) →
        (jsGet (insertJS t ti a) ti).map (fun x => x.id) = some a.id
        ∧ (jsGet (insertJS t ti a) (ti + 1)).map (fun x => x.id)
            = (t[n]?).map (fun x => x.id)) := by
  refine ⟨?_, ?_, ?_⟩
  · rw [handleDragOver_accepted gd now s ev cache over a T hc ha ho hT hT0 hS hq hg]
    unfold acceptedMove
    dsimp only
    rw [getList_applyCrossListMove_target cache a _ T _ hS, ht, hti]
  · rintro rfl
    rw [jsFindIndex_nil] at hti
    subst hti
    refine ⟨?_, ?_⟩
    · rw [insertJS_nil]
      simp [jsGet]
    · rw [insertJS_nil]
      norm_num [jsGet]
  · intro n hn
    subst hn
    obtain ⟨hfind, hlt⟩ := jsFindIndex_nonneg_spec t _ n hti
    refine ⟨?_, ?_⟩
    · rw [jsGet_insertJS_self t n a hlt.le]
      rfl
    · rw [jsGet_insertJS_next t n a hlt.le]

/-- C3 witness: the amended claim at the concrete empty-favorites scenario
(`t = []`, target index `-1`). -/
theorem c3_witness :
    (handleDragOver gd0 0 s0 ev0).2.commands
      = [StoreCommand.updateArticle "a1" false (some 0),
         StoreCommand.moveArticlePosition "a1" none (some "a1") "queue_sort_position"] := by
  have h := c3_amended gd0 0 s0 ev0 cache0 { id := "favorites", dataPresent := false }
      a1 "favorites" [] (-1) rfl rfl rfl rfl (by decide) (by decide) (Or.inl rfl)
      (by decide) rfl rfl
  obtain ⟨h1, h2, _⟩ := h
  obtain ⟨hb, ha2⟩ := h2 rfl
  rw [h1, hb, ha2]
  decide

/-- C10: every accepted cross-list move issues exactly two commands: first the
membership update, whose `is_queued` flag records whether the target is the queue and
whose queue ordering key is set to the current time, and then — only after the membership
update resolves — a positional command that always names `"queue_sort_position"`,
regardless of the target list's own ordering attribute. -/
theorem c10_queue_attribute (gd : String → String) (now : Nat) (s : DragState)
    (ev : OverEvent) (cache : ArticleListsCache) (over : DragRef) (a : Article) (T : String)
    (hc : s.articleLists = some cache) (ha : s.activeArticle = some a)
    (ho : ev.over = some over)
    (hT : resolveTarget cache over = some T) (hT0 : T ≠ "")
    (hS : findContainingList cache ev.activeId ≠ some T)
    (hq : findContainingList cache ev.activeId = some "queue" ∨ T = "queue")
    (hg : (endsWithMarker T '_' && a.topic_id != some T
        || containsSep T '.' && gd a.url != T) = false) :
    ∃ before after,
      (handleDragOver gd now s ev).2.commands =
        [StoreCommand.updateArticle a.id (T == "queue") (some now),
         StoreCommand.moveArticlePosition a.id before after "queue_sort_position"] := by
  rw [handleDragOver_accepted gd now s ev cache over a T hc ha ho hT hT0 hS hq hg]
  exact ⟨_, _, rfl⟩

/-- C10 witness: moving into `"favorites"` (not the queue) still sets the queue ordering
key in the membership command and names `"queue_sort_position"` in the positional
command. -/
theorem c10_witness :
    ∃ before after,
      (handleDragOver gd0 0 s0 ev0).2.commands =
        [StoreCommand.updateArticle "a1" false (some 0),
         StoreCommand.moveArticlePosition "a1" before after "queue_sort_position"] :=
  c10_queue_attribute gd0 0 s0 ev0 cache0 { id := "favorites", dataPresent := false }
    a1 "favorites" rfl rfl rfl rfl (by decide) (by decide) (Or.inl rfl) (by decide)

/-- C8: the claim says that after any mutation — over events included — the core
publishes the updated collection through the provided setter.  False: the concrete
accepted over event mutates the snapshot, yet `setArticleLists` is never called. -/
theorem c8_counterexample :
    (handleDragOver gd0 0 s0 ev0).1.articleLists ≠ s0.articleLists
    ∧ (handleDragOver gd0 0 s0 ev0).2.published = [] := by decide

/-- C8 (amended): `setArticleLists` is invoked by no over event whatsoever; it is invoked
exactly in the end-event intra-list reorder branch, with the updated collection — the
same one stored back into the state. -/
theorem c8_publication (gd : String → String) (now : Nat) :
    (∀ (s : DragState) (ev : OverEvent), (handleDragOver gd now s ev).2.published = [])
    ∧ ∀ (s : DragState) (ev : EndEvent) (cache : ArticleListsCache) (over : DragRef)
        (L sk : String),
        s.articleLists = some cache → ev.over = some over →
        s.activeListId = some L → L ≠ "" → ev.activeId ≠ over.id → sortKeyOf L = some sk →
        (handleDragEnd s ev).2.published
            = [setList cache L (arrayMoveJS (getList cache L)
                (jsFindIndex (getList cache L) (fun x => x.id == ev.activeId))
                (jsFindIndex (getList cache L) (fun x => x.id == over.id)))]
          ∧ (handleDragEnd s ev).1.articleLists
            = some (setList cache L (arrayMoveJS (getList cache L)
                (jsFindIndex (getList cache L) (fun x => x.id == ev.activeId))
                (jsFindIndex (getList cache L) (fun x => x.id == over.id)))) := by
  constructor
  · intro s ev
    obtain ⟨als, aa, al⟩ := s
    obtain ⟨aid, ov⟩ := ev
    unfold handleDragOver
    rcases als with _ | cache
    · rfl
    rcases ov with _ | over
    · rfl
    rcases aa with _ | a
    · rfl
    dsimp only
    rcases hT : resolveTarget cache over with _ | T
    · rfl
    repeat' split
    all_goals rfl
  · intro s ev cache over L sk hc ho hL hL0 hne hsk
    rw [handleDragEnd_reorder s ev cache over L sk hc ho hL hL0 hne hsk]
    exact ⟨rfl, rfl⟩

/-- C8 witness: the over event that mutates the snapshot publishes nothing, while the
concrete queue reorder publishes the updated collection. -/
theorem c8_witness :
    (handleDragOver gd0 0 s0 ev0).2.published = []
    ∧ (handleDragEnd sQ evQ).2.published = [[("queue", [artB, artC, artA, artD])]] := by
  refine ⟨(c8_publication gd0 0).1 s0 ev0, ?_⟩
  have h := (c8_publication gd0 0).2 sQ evQ cacheQ { id := "c", dataPresent := true }
      "queue" "queue_sort_position" rfl rfl rfl (by decide) (by decide) rfl
  rw [h.1]
  decide

/-- C9: moving an item out of its list `L1` (where it sits at index `pre.length`, with no
other occurrence of its id anywhere relevant) into `L2` at any index, and then moving it
back into `L1` at its original index, restores the collection: same keys, and every
list — touched or untouched — equals the original. -/
theorem c9_round_trip (c : ArticleListsCache) (a : Article) (L1 L2 : String)
    (pre post : List Article) (i : Int)
    (hL1 : L1 ≠ "") (hL2 : L2 ≠ "") (hne : L1 ≠ L2)
    (hk1 : L1 ∈ keysOf c) (hk2 : L2 ∈ keysOf c)
    (hsrc : getList c L1 = pre ++ a :: post)
    (hpre : ∀ x ∈ pre, x.id ≠ a.id) (hpost : ∀ x ∈ post, x.id ≠ a.id)
    (htgt : ∀ x ∈ getList c L2, x.id ≠ a.id) :
    keysOf (applyCrossListMove (applyCrossListMove c a (some L1) L2 i) a (some L2) L1
        (pre.length : Int)) = keysOf c
    ∧ ∀ L, getList (applyCrossListMove (applyCrossListMove c a (some L1) L2 i) a (some L2) L1
        (pre.length : Int)) L = getList c L := by
  have hL1b : (L1 == "") = false := by simp [hL1]
  have hL2b : (L2 == "") = false := by simp [hL2]
  have hfsrc : (getList c L1).filter (fun x => x.id != a.id) = pre ++ post := by
    rw [hsrc, List.filter_append, List.filter_cons_of_neg (by simp),
      List.filter_eq_self.mpr (fun x hx => by simp [hpre x hx]),
      List.filter_eq_self.mpr (fun x hx => by simp [hpost x hx])]
  have step1 : applyCrossListMove c a (some L1) L2 i
      = setList (setList c L1 (pre ++ post)) L2 (insertJS (getList c L2) i a) := by
    unfold applyCrossListMove
    dsimp only
    simp only [hL1b, Bool.false_eq_true, if_false, hfsrc,
      getList_setList_ne c L1 (pre ++ post) L2 (Ne.symm hne)]
  have hfilter2 : (insertJS (getList c L2) i a).filter (fun x => x.id != a.id)
      = getList c L2 := by
    show ((getList c L2).take (jsSliceIdx (getList c L2).length i) ++ [a]
        ++ (getList c L2).drop (jsSliceIdx (getList c L2).length i)).filter
          (fun x => x.id != a.id) = getList c L2
    rw [List.filter_append, List.filter_append,
      List.filter_cons_of_neg (by simp), List.filter_nil,
      List.filter_eq_self.mpr (fun x hx => by simp [htgt x (List.mem_of_mem_take hx)]),
      List.filter_eq_self.mpr (fun x hx => by simp [htgt x (List.mem_of_mem_drop hx)]),
      List.append_nil, List.take_append_drop]
  have hout : applyCrossListMove
        (setList (setList c L1 (pre ++ post)) L2 (insertJS (getList c L2) i a))
        a (some L2) L1 (pre.length : Int)
      = setList (setList (setList (setList c L1 (pre ++ post)) L2
          (insertJS (getList c L2) i a)) L2 (getList c L2)) L1 (pre ++ a :: post) := by
    unfold applyCrossListMove
    dsimp only
    simp only [hL2b, Bool.false_eq_true, if_false, getList_setList_self, hfilter2]
    rw [getList_setList_ne _ L2 _ L1 hne, getList_setList_ne _ L2 _ L1 hne,
      getList_setList_self, insertJS_of_nonneg _ _ _ (by simp),
      List.take_left, List.drop_left, List.append_assoc, List.singleton_append]
  have hfinal : applyCrossListMove (applyCrossListMove c a (some L1) L2 i) a (some L2) L1
        (pre.length : Int)
      = setList (setList (setList (setList c L1 (pre ++ post)) L2
          (insertJS (getList c L2) i a)) L2 (getList c L2)) L1 (pre ++ a :: post) := by
    rw [step1, hout]
  have hkA : keysOf (setList c L1 (pre ++ post)) = keysOf c := keysOf_setList _ _ _ hk1
  have hkB : keysOf (setList (setList c L1 (pre ++ post)) L2 (insertJS (getList c L2) i a))
      = keysOf c := by
    rw [keysOf_setList _ _ _ (by rw [hkA]; exact hk2), hkA]
  have hkC : keysOf (setList (setList (setList c L1 (pre ++ post)) L2
      (insertJS (getList c L2) i a)) L2 (getList c L2)) = keysOf c := by
    rw [keysOf_setList _ _ _ (by rw [hkB]; exact hk2), hkB]
  refine ⟨?_, ?_⟩
  · rw [hfinal, keysOf_setList _ _ _ (by rw [hkC]; exact hk1), hkC]
  · intro L
    rw [hfinal]
    by_cases hLa : L = L1
    · subst hLa
      rw [getList_setList_self, hsrc]
    · rw [getList_setList_ne _ _ _ _ hLa]
      by_cases hLb : L = L2
      · subst hLb
        rw [getList_setList_self]
      · rw [getList_setList_ne _ _ _ _ hLb, getList_setList_ne _ _ _ _ hLb,
          getList_setList_ne _ _ _ _ hLa]

/-- C9 witness: `artA` moved from `"queue"` to `"favorites"` at index 0 and back to its
original index 0 restores the concrete collection exactly. -/
theorem c9_witness :
    keysOf (applyCrossListMove (applyCrossListMove cache9 artA (some "queue") "favorites" 0)
        artA (some "favorites") "queue" ((([] : List Article).length : Nat) : Int))
      = ["queue", "favorites"]
    ∧ getList (applyCrossListMove (applyCrossListMove cache9 artA (some "queue") "favorites" 0)
        artA (some "favorites") "queue" ((([] : List Article).length : Nat) : Int)) "queue"
      = [artA, artB]
    ∧ getList (applyCrossListMove (applyCrossListMove cache9 artA (some "queue") "favorites" 0)
        artA (some "favorites") "queue" ((([] : List Article).length : Nat) : Int)) "favorites"
      = [artC] := by
  have h := c9_round_trip cache9 artA "queue" "favorites" [] [artB] 0
      (by decide) (by decide) (by decide) (by decide) (by decide) rfl
      (by intro x hx; exact absurd hx (List.not_mem_nil x)) (by decide) (by decide)
  exact ⟨h.1.trans (by decide), (h.2 "queue").trans (by decide),
    (h.2 "favorites").trans (by decide)⟩

end Unmedium
